import Mathlib

/-!
Verification of the event-layout, zoom and navigation logic of the
`calendar-kit` calendar component (sources: `CalendarContainer.tsx` and the
`EventItem` component).  JavaScript number arithmetic is embedded over `ℚ`
(exact rational arithmetic); unix timestamps in milliseconds are embedded as
`ℤ`; JavaScript `undefined` and truthiness checks on numbers are embedded via
`Option` together with explicit zero tests.
-/

namespace CalendarKit

/-- The `eventWidth` derived value of the `EventItem` component:
`totalColumns = total - columnSpan`, `totalOverlap = totalColumns *
overlapEventsSpacing`, `totalWidth = columnWidthAnim - rightEdgeSpacing -
totalOverlap`, `width = (totalWidth / total) * columnSpan` (the `withTiming`
animation wrapper only animates towards this target value and is dropped). -/
def eventWidth (columnWidthAnim rightEdgeSpacing overlapEventsSpacing total columnSpan : ℚ) : ℚ :=
  let totalColumns := total - columnSpan
  let totalOverlap := totalColumns * overlapEventsSpacing
  let totalWidth := columnWidthAnim - rightEdgeSpacing - totalOverlap
  (totalWidth / total) * columnSpan

/-- The `eventPosX` derived value of the `EventItem` component:
`left = diffDays * columnWidthAnim; left += (width + overlapEventsSpacing) *
index` (again dropping the `withTiming` wrapper). -/
def eventPosX (diffDays : ℤ) (columnWidthAnim overlapEventsSpacing width index : ℚ) : ℚ :=
  (diffDays : ℚ) * columnWidthAnim + (width + overlapEventsSpacing) * index

/-- The horizontal extent of a rendered event of width `w` starting at
horizontal position `l`: the half-open interval `[l, l + w)`. -/
def horizontalExtent (l w : ℚ) : Set ℚ := Set.Ico l (l + w)

/-- C1: in a day column (`diffDays = 0`), for a group of packed events sharing
`total = n ≥ 1`, all with `columnSpan = 1` and pairwise distinct indices in
`0..n-1`, with `rightEdgeSpacing ≥ 0` and `overlapEventsSpacing ≥ 0`, the
horizontal extents computed by `EventItem` are pairwise disjoint and lie
within `[0, columnWidth]`: overlapping events render side by side without
visual collision. -/
theorem eventWidth_columns_disjoint_and_bounded
    (colW r s : ℚ) (n i j : ℕ) (hn : 1 ≤ n) (hi : i < n) (hr : 0 ≤ r) (hs : 0 ≤ s) :
    horizontalExtent (eventPosX 0 colW s (eventWidth colW r s (n : ℚ) 1) (i : ℚ))
      (eventWidth colW r s (n : ℚ) 1) ⊆ Set.Icc 0 colW ∧
    (j < n → i ≠ j →
      Disjoint
        (horizontalExtent (eventPosX 0 colW s (eventWidth colW r s (n : ℚ) 1) (i : ℚ))
          (eventWidth colW r s (n : ℚ) 1))
        (horizontalExtent (eventPosX 0 colW s (eventWidth colW r s (n : ℚ) 1) (j : ℚ))
          (eventWidth colW r s (n : ℚ) 1))) := by
  set w := eventWidth colW r s (n : ℚ) 1 with hwdef
  have hn0 : (0 : ℚ) < (n : ℚ) := by exact_mod_cast hn
  have hnw : (n : ℚ) * w = colW - r - ((n : ℚ) - 1) * s := by
    rw [hwdef]; unfold eventWidth; field_simp
  have hposx : ∀ k : ℕ, eventPosX 0 colW s w (k : ℚ) = (w + s) * (k : ℚ) := by
    intro k; unfold eventPosX; push_cast; ring
  rcases le_or_lt w 0 with hw | hw
  · have hempty : ∀ k : ℕ, horizontalExtent (eventPosX 0 colW s w (k : ℚ)) w = ∅ := by
      intro k
      unfold horizontalExtent
      apply Set.Ico_eq_empty
      rw [not_lt]
      linarith
    refine ⟨?_, fun _ _ => ?_⟩
    · rw [hempty i]
      exact Set.empty_subset _
    · rw [hempty i]
      exact Set.disjoint_left.mpr (by simp)
  · have hws : (0 : ℚ) ≤ w + s := by linarith
    have key : ∀ a b : ℕ, a < b →
        eventPosX 0 colW s w (a : ℚ) + w ≤ eventPosX 0 colW s w (b : ℚ) := by
      intro a b hab
      rw [hposx a, hposx b]
      have hb : (a : ℚ) + 1 ≤ (b : ℚ) := by exact_mod_cast hab
      nlinarith [mul_le_mul_of_nonneg_left hb hws]
    refine ⟨?_, fun _ hij => ?_⟩
    · intro x hx
      simp only [horizontalExtent, Set.mem_Ico] at hx
      have hpos : 0 ≤ eventPosX 0 colW s w (i : ℚ) := by
        rw [hposx i]
        have : (0 : ℚ) ≤ (i : ℚ) := by positivity
        exact mul_nonneg hws this
      have hi1 : (i : ℚ) ≤ (n : ℚ) - 1 := by
        have : (i : ℚ) + 1 ≤ (n : ℚ) := by exact_mod_cast hi
        linarith
      have hupper : eventPosX 0 colW s w (i : ℚ) + w ≤ colW - r := by
        rw [hposx i]
        nlinarith [mul_le_mul_of_nonneg_left hi1 hws]
      exact ⟨by linarith [hx.1], by linarith [hx.2]⟩
    · rw [Set.disjoint_left]
      intro x hxi hxj
      simp only [horizontalExtent, Set.mem_Ico] at hxi hxj
      rcases lt_or_gt_of_ne hij with h | h
      · have := key i j h
        linarith [hxi.2, hxj.1]
      · have := key j i h
        linarith [hxj.2, hxi.1]

/-- Witness for C1 at `columnWidth = 100`, `rightEdgeSpacing = 4`,
`overlapEventsSpacing = 2`, `total = 3`, indices `0` and `1`. -/
theorem eventWidth_columns_disjoint_and_bounded_w :
    horizontalExtent (eventPosX 0 100 2 (eventWidth 100 4 2 ((3 : ℕ) : ℚ) 1) ((0 : ℕ) : ℚ))
      (eventWidth 100 4 2 ((3 : ℕ) : ℚ) 1) ⊆ Set.Icc 0 100 ∧
    Disjoint
      (horizontalExtent (eventPosX 0 100 2 (eventWidth 100 4 2 ((3 : ℕ) : ℚ) 1) ((0 : ℕ) : ℚ))
        (eventWidth 100 4 2 ((3 : ℕ) : ℚ) 1))
      (horizontalExtent (eventPosX 0 100 2 (eventWidth 100 4 2 ((3 : ℕ) : ℚ) 1) ((1 : ℕ) : ℚ))
        (eventWidth 100 4 2 ((3 : ℕ) : ℚ) 1)) :=
  ⟨(eventWidth_columns_disjoint_and_bounded 100 4 2 3 0 1 (by norm_num) (by norm_num)
      (by norm_num) (by norm_num)).1,
    (eventWidth_columns_disjoint_and_bounded 100 4 2 3 0 1 (by norm_num) (by norm_num)
      (by norm_num) (by norm_num)).2 (by norm_num) (by norm_num)⟩

/-- C2 counterexample: a non-overlapping event (`total = 1`, `columnSpan = 1`,
`index = 0`) does not get the full column width `columnWidthAnim` whenever
`rightEdgeSpacing ≠ 0`; at `columnWidthAnim = 100`, `rightEdgeSpacing = 10`
the computed width is `90`. -/
theorem eventWidth_single_not_full_column :
    eventWidth 100 10 0 1 1 ≠ 100 := by
  unfold eventWidth; norm_num

/-- C2 amended: for a non-overlapping event (`total = 1`, `columnSpan = 1`,
`index = 0`), the width computed by `EventItem` equals the full day-column
width minus the right-edge spacing: `columnWidthAnim - rightEdgeSpacing`. -/
theorem eventWidth_single_full_minus_rightEdge (colW r s : ℚ) :
    eventWidth colW r s 1 1 = colW - r := by
  unfold eventWidth; norm_num

/-- `MILLISECONDS_IN_DAY` from the constants module: one day in ms. -/
def MILLISECONDS_IN_DAY : ℤ := 86400000

/-- The number of iterations of the loop
`for (let i = a; i < b; i += MILLISECONDS_IN_DAY)`: `⌈(b - a) / day⌉`,
and `0` when `b ≤ a`. -/
def dayLoopCount (a b : ℤ) : ℕ :=
  ((b - a + MILLISECONDS_IN_DAY - 1) / MILLISECONDS_IN_DAY).toNat

/-- The number of loop iterations `i = a, a + day, ...` with `i < b` at which
`visibleDates[i]` is missing — the body of the two `diffDays` adjustment loops
in `EventItem`. -/
def countMissingDays (visibleDates : ℤ → Bool) (a b : ℤ) : ℕ :=
  ((List.range (dayLoopCount a b)).filter
    (fun k => !visibleDates (a + (k : ℤ) * MILLISECONDS_IN_DAY))).length

/-- The `diffDays` value computed by `EventItem.data`:
`Math.floor((eventStartUnix - startUnix) / MILLISECONDS_IN_DAY)`, then
incremented once per missing visible date walking forward from
`eventStartUnix` to `startUnix` (when the event starts before the column), or
decremented once per missing visible date walking from `startUnix` to
`eventStartUnix` otherwise.  `Math.floor` of the exact quotient is `Int.fdiv`. -/
def eventItemDiffDays (visibleDates : ℤ → Bool) (eventStartUnix startUnix : ℤ) : ℤ :=
  let base := Int.fdiv (eventStartUnix - startUnix) MILLISECONDS_IN_DAY
  if eventStartUnix < startUnix then
    base + (countMissingDays visibleDates eventStartUnix startUnix : ℤ)
  else
    base - (countMissingDays visibleDates startUnix eventStartUnix : ℤ)

/-- The result of the `data` memo of `EventItem`. -/
structure EventItemData where
  totalDuration : ℚ
  startMinutes : ℚ
  diffDays : ℤ
  deriving DecidableEq, Repr

/-- The `data` memo of `EventItem`: `maxDuration = end - start`,
`newStart = startMinutes - start`, `totalDuration = min(duration, maxDuration)`;
if `newStart < 0` then `totalDuration += newStart; newStart = 0`. -/
def eventItemData (start endTime duration startMinutes : ℚ)
    (visibleDates : ℤ → Bool) (eventStartUnix startUnix : ℤ) : EventItemData :=
  let maxDuration := endTime - start
  let newStart := startMinutes - start
  let totalDuration := min duration maxDuration
  let clippedDuration := if newStart < 0 then totalDuration + newStart else totalDuration
  let clippedStart := if newStart < 0 then 0 else newStart
  { totalDuration := clippedDuration
    startMinutes := clippedStart
    diffDays := eventItemDiffDays visibleDates eventStartUnix startUnix }

/-- The inputs of `EventItem`'s layout computation: body-context values
(`minuteHeight`, `columnWidthAnim`, `rightEdgeSpacing`, `overlapEventsSpacing`,
`start`, `end`), the packed event's `_internal` fields, the column `startUnix`
and the `visibleDates` map. -/
structure EventItemInputs where
  minuteHeight : ℚ
  columnWidthAnim : ℚ
  rightEdgeSpacing : ℚ
  overlapEventsSpacing : ℚ
  start : ℚ
  endTime : ℚ
  duration : ℚ
  startMinutes : ℚ
  total : ℚ
  index : ℚ
  columnSpan : ℚ
  eventStartUnix : ℤ
  startUnix : ℤ
  visibleDates : ℤ → Bool

/-- The four derived layout values of `EventItem`. -/
structure EventItemLayout where
  height : ℚ
  width : ℚ
  left : ℚ
  top : ℚ
  deriving DecidableEq, Repr

/-- The layout computed by `EventItem`: `eventHeight = totalDuration *
minuteHeight`, `eventWidth`, `eventPosX` and `top = startMinutes *
minuteHeight`. -/
def eventItemLayoutOf (inp : EventItemInputs) : EventItemLayout :=
  let data := eventItemData inp.start inp.endTime inp.duration inp.startMinutes
    inp.visibleDates inp.eventStartUnix inp.startUnix
  let w := eventWidth inp.columnWidthAnim inp.rightEdgeSpacing inp.overlapEventsSpacing
    inp.total inp.columnSpan
  { height := data.totalDuration * inp.minuteHeight
    width := w
    left := eventPosX data.diffDays inp.columnWidthAnim inp.overlapEventsSpacing w inp.index
    top := data.startMinutes * inp.minuteHeight }

/-- C3: the event layout computation is deterministic — two evaluations of
`EventItem`'s layout on equal inputs produce equal height, width, left and
top values.  The computation is a pure function of its inputs. -/
theorem eventItemLayout_deterministic (a b : EventItemInputs) (h : a = b) :
    eventItemLayoutOf a = eventItemLayoutOf b :=
  congrArg eventItemLayoutOf h

/-- Witness for C3 at a concrete input. -/
theorem eventItemLayout_deterministic_w :
    eventItemLayoutOf ⟨1, 100, 1, 1, 0, 1440, 60, 480, 2, 1, 1, 0, 0, fun _ => true⟩ =
    eventItemLayoutOf ⟨1, 100, 1, 1, 0, 1440, 60, 480, 2, 1, 1, 0, 0, fun _ => true⟩ :=
  eventItemLayout_deterministic _ _ rfl

/-- C4: the rendered duration is clipped to the visible time window:
`totalDuration = min(duration, end - start)` reduced by exactly the clipped
amount `start - startMinutes` when the event starts before the window, and the
rendered start is clamped to minute 0 of the window, i.e. it equals
`max (startMinutes - start) 0`. -/
theorem eventItemData_clips_to_window (start endTime duration startMinutes : ℚ)
    (visibleDates : ℤ → Bool) (eventStartUnix startUnix : ℤ) :
    (eventItemData start endTime duration startMinutes
        visibleDates eventStartUnix startUnix).totalDuration =
      min duration (endTime - start) - max (start - startMinutes) 0 ∧
    (eventItemData start endTime duration startMinutes
        visibleDates eventStartUnix startUnix).startMinutes =
      max (startMinutes - start) 0 := by
  rcases lt_or_le (startMinutes - start) 0 with h | h
  · simp only [eventItemData, if_pos h]
    constructor
    · rw [max_eq_left (show (0 : ℚ) ≤ start - startMinutes by linarith)]
      ring
    · rw [max_eq_right (show startMinutes - start ≤ (0 : ℚ) by linarith)]
  · simp only [eventItemData, if_neg (not_lt.mpr h)]
    constructor
    · rw [max_eq_right (show start - startMinutes ≤ (0 : ℚ) by linarith)]
      ring
    · rw [max_eq_left h]

/-- Modelled from the spec: `clampValues` (imported from `./utils/utils`,
whose source is not included) clamps a value to the inclusive range
`[minValue, maxValue]`. -/
def clampValues (value minValue maxValue : ℚ) : ℚ :=
  max minValue (min value maxValue)

/-- The `newHeight` selection of `zoom`:
`let newHeight = props?.height ?? initialTimeIntervalHeight;
if (props?.scale) { newHeight = timeIntervalHeight.value * props.scale; }` —
a JavaScript truthiness test, so a present but zero `scale` is ignored. -/
def zoomNewHeight (scale height : Option ℚ) (timeIntervalHeight initialTimeIntervalHeight : ℚ) : ℚ :=
  let newHeight := match height with
    | some h => h
    | none => initialTimeIntervalHeight
  match scale with
  | some s => if s = 0 then newHeight else timeIntervalHeight * s
  | none => newHeight

/-- The height selection as the claim words it: `height` takes priority over
`scale` (`newHeight` is `height` if given, else `timeIntervalHeight * scale`
if `scale` is given, else `initialTimeIntervalHeight`).  Stated for
comparison with `zoomNewHeight`, which is read off the source. -/
def zoomNewHeightClaimed (scale height : Option ℚ) (timeIntervalHeight initialTimeIntervalHeight : ℚ) : ℚ :=
  match height with
  | some h => h
  | none =>
    match scale with
    | some s => timeIntervalHeight * s
    | none => initialTimeIntervalHeight

/-- The `clampedHeight` targeted by `zoom`. -/
def zoomClampedHeight (scale height : Option ℚ) (tih initH minH maxH : ℚ) : ℚ :=
  clampValues (zoomNewHeight scale height tih initH) minH maxH

/-- C5 counterexample: when both `scale` and `height` are passed, `zoom` lets
`scale` win, not `height`: with `scale = 2`, `height = 80`,
`timeIntervalHeight = 60`, bounds `[60, 124]`, the code targets
`clamp(120) = 120`, while the claim's formula gives `clamp(80) = 80`. -/
theorem zoomClampedHeight_not_height_priority :
    zoomClampedHeight (some 2) (some 80) 60 60 60 124 ≠
      clampValues (zoomNewHeightClaimed (some 2) (some 80) 60 60) 60 124 := by
  unfold zoomClampedHeight zoomNewHeight zoomNewHeightClaimed clampValues
  norm_num

/-- C5 amended: the new time-interval height targeted by `zoom` equals
`clampValues(newHeight, minTimeIntervalHeight, maxTimeIntervalHeight)`, where
`newHeight` is `timeIntervalHeight * scale` if a non-zero `scale` is given,
else `height` if given, else `initialTimeIntervalHeight`; whenever
`minTimeIntervalHeight ≤ maxTimeIntervalHeight` it therefore lies within
`[minTimeIntervalHeight, maxTimeIntervalHeight]`. -/
theorem zoom_targets_clamped_height (scale height : Option ℚ) (tih initH minH maxH : ℚ)
    (hmm : minH ≤ maxH) :
    zoomClampedHeight scale height tih initH minH maxH =
      clampValues (zoomNewHeight scale height tih initH) minH maxH ∧
    minH ≤ zoomClampedHeight scale height tih initH minH maxH ∧
    zoomClampedHeight scale height tih initH minH maxH ≤ maxH := by
  refine ⟨rfl, ?_, ?_⟩
  · unfold zoomClampedHeight clampValues
    exact le_max_left _ _
  · unfold zoomClampedHeight clampValues
    exact max_le hmm (min_le_right _ _)

/-- Witness for the amended C5 at `scale = 2`, `height = 80`,
`timeIntervalHeight = 60`, bounds `[60, 124]`. -/
theorem zoom_targets_clamped_height_w :
    zoomClampedHeight (some 2) (some 80) 60 60 60 124 =
      clampValues (zoomNewHeight (some 2) (some 80) 60 60) 60 124 ∧
    (60 : ℚ) ≤ zoomClampedHeight (some 2) (some 80) 60 60 60 124 ∧
    zoomClampedHeight (some 2) (some 80) 60 60 60 124 ≤ 124 :=
  zoom_targets_clamped_height (some 2) (some 80) 60 60 60 124 (by norm_num)

/-- The vertical scroll offset targeted by `zoom`:
`pinchYNormalized = offsetY / timeIntervalHeight;
pinchYScale = clampedHeight * pinchYNormalized; y = pinchYScale`. -/
def zoomScrollY (scale height : Option ℚ) (tih initH minH maxH offsetY : ℚ) : ℚ :=
  let clampedHeight := zoomClampedHeight scale height tih initH minH maxH
  let pinchYNormalized := offsetY / tih
  clampedHeight * pinchYNormalized

/-- C6: `zoom` rescales the vertical scroll offset proportionally to the
height change: the targeted scroll y equals
`clampedHeight * (offsetY / timeIntervalHeight)`, and (for a positive lower
height bound, which makes `clampedHeight` positive) the ratio of scroll
offset to time-interval height is preserved across the zoom. -/
theorem zoom_preserves_scroll_ratio (scale height : Option ℚ)
    (tih initH minH maxH offsetY : ℚ) (hmin : 0 < minH) :
    zoomScrollY scale height tih initH minH maxH offsetY =
      zoomClampedHeight scale height tih initH minH maxH * (offsetY / tih) ∧
    zoomScrollY scale height tih initH minH maxH offsetY /
      zoomClampedHeight scale height tih initH minH maxH = offsetY / tih := by
  have hpos : 0 < zoomClampedHeight scale height tih initH minH maxH := by
    unfold zoomClampedHeight clampValues
    exact lt_of_lt_of_le hmin (le_max_left _ _)
  refine ⟨rfl, ?_⟩
  simp only [zoomScrollY]
  exact mul_div_cancel_left₀ _ (ne_of_gt hpos)

/-- Witness for C6 at `scale = 2`, `height` absent, `timeIntervalHeight = 60`,
bounds `[60, 124]`, `offsetY = 90`. -/
theorem zoom_preserves_scroll_ratio_w :
    zoomScrollY (some 2) none 60 60 60 124 90 =
      zoomClampedHeight (some 2) none 60 60 60 124 * (90 / 60) ∧
    zoomScrollY (some 2) none 60 60 60 124 90 /
      zoomClampedHeight (some 2) none 60 60 60 124 = 90 / 60 :=
  zoom_preserves_scroll_ratio (some 2) none 60 60 60 124 90 (by norm_num)

/-- The `numberOfDays > 7` guard of `CalendarContainer`, as a fallible
computation. -/
def checkNumberOfDays (initialNumberOfDays : ℤ) : Except String Unit :=
  if initialNumberOfDays > 7 then Except.error "The maximum number of days is 7"
  else Except.ok ()

/-- The effective number of displayed days:
`daysToShow = 7 - hideWeekDaysCount;
numberOfDays = initialNumberOfDays > daysToShow ? daysToShow : initialNumberOfDays`. -/
def effectiveNumberOfDays (initialNumberOfDays : ℤ) (hideWeekDaysCount : ℕ) : ℤ :=
  let daysToShow : ℤ := 7 - (hideWeekDaysCount : ℤ)
  if initialNumberOfDays > daysToShow then daysToShow else initialNumberOfDays

/-- C7: `CalendarContainer` throws `Error('The maximum number of days is 7')`
iff the `numberOfDays` prop exceeds 7; for `numberOfDays ≤ 7` the guard does
not throw; and the effective number of displayed days is
`min(numberOfDays, 7 - number of hidden week days)`. -/
theorem numberOfDays_guard (n : ℤ) (h : ℕ) :
    (checkNumberOfDays n = Except.error "The maximum number of days is 7" ↔ 7 < n) ∧
    (n ≤ 7 → checkNumberOfDays n = Except.ok ()) ∧
    effectiveNumberOfDays n h = min n (7 - (h : ℤ)) := by
  refine ⟨?_, ?_, ?_⟩
  · unfold checkNumberOfDays
    split_ifs with hc
    · simp [hc]
    · simp [hc]
  · intro hn
    unfold checkNumberOfDays
    rw [if_neg (not_lt.mpr hn)]
  · simp only [effectiveNumberOfDays]
    split_ifs with hc
    · rw [min_eq_right (by omega)]
    · rw [min_eq_left (by omega)]

/-- Witness for C7: the guard throws at `numberOfDays = 8`, and with
`numberOfDays = 5` and 3 hidden week days the effective count is
`min 5 4 = 4`. -/
theorem numberOfDays_guard_w :
    checkNumberOfDays 8 = Except.error "The maximum number of days is 7" ∧
    effectiveNumberOfDays 5 3 = min 5 (7 - ((3 : ℕ) : ℤ)) :=
  ⟨(numberOfDays_guard 8 0).1.mpr (by norm_num), (numberOfDays_guard 5 3).2.2⟩

/-- JavaScript truthiness of a possibly-`undefined` number: `undefined` and
`0` are falsy. -/
def jsTruthyNum (o : Option ℤ) : Bool :=
  match o with
  | some v => v != 0
  | none => false

/-- JavaScript array indexing `arr[i]` for an arbitrary integer index:
out-of-range (including negative) reads yield `undefined`. -/
def jsArrayGet (l : List ℤ) (i : ℤ) : Option ℤ :=
  if 0 ≤ i then l.get? i.toNat else none

/-- Target day index of `goToNextPage`: `currentIndex + 1` when paging one
day at a time (`isSingleDay || forceScrollByDay || scrollByDay`), else
`currentIndex + columns`. -/
def nextTargetIndex (stepByDay : Bool) (currentIndex columns : ℤ) : ℤ :=
  if stepByDay then currentIndex + 1 else currentIndex + columns

/-- Target day index of `goToPrevPage`: `Math.max(currentIndex - 1, 0)` when
paging one day at a time, else `Math.max(currentIndex - columns, 0)`. -/
def prevTargetIndex (stepByDay : Bool) (currentIndex columns : ℤ) : ℤ :=
  if stepByDay then max (currentIndex - 1) 0 else max (currentIndex - columns) 0

/-- The scroll offset for a target day index: `idx * colWidth` (with
`colWidth = isSingleDay ? calendarGridWidth : columnWidth`) when paging by
day, else `Math.floor(idx / columns) * (columnWidth * columns)`. -/
def pageOffset (isSingleDay stepByDay : Bool) (calendarGridWidth columnWidth : ℚ)
    (columns idx : ℤ) : ℚ :=
  if stepByDay then (idx : ℚ) * (if isSingleDay then calendarGridWidth else columnWidth)
  else ((Int.fdiv idx columns : ℤ) : ℚ) * (columnWidth * (columns : ℚ))

/-- The observable outcome of a page-navigation call: the final value of the
`triggerDateChanged` ref and the offset passed to `scrollTo` (`none` when no
scroll is performed). -/
structure PageNavResult where
  triggerDateChanged : Option ℤ
  scrolledTo : Option ℚ
  deriving DecidableEq, Repr

/-- `goToNextPage`: early-returns when `triggerDateChanged.current` is truthy
or when `visibleDatesArray.indexOf(visibleDateUnix.current) === -1`; computes
the next day index and offset; clears `triggerDateChanged` and skips the
scroll when the target date is missing/falsy or the offset is not scrollable;
otherwise records the target date and scrolls.  The external
`calendarListRef.current?.isScrollable` check is abstracted as the
`isScrollable` parameter (a `null` ref behaves as constantly false). -/
def goToNextPage (isScrollable : ℚ → Bool) (isSingleDay forceScrollByDay scrollByDay : Bool)
    (calendarGridWidth columnWidth : ℚ) (columns : ℤ)
    (visibleDatesArray : List ℤ) (visibleDateUnix : ℤ)
    (triggerDateChanged : Option ℤ) : PageNavResult :=
  if jsTruthyNum triggerDateChanged then ⟨triggerDateChanged, none⟩
  else
    match List.findIdx? (fun d => d == visibleDateUnix) visibleDatesArray with
    | none => ⟨triggerDateChanged, none⟩
    | some currentIndex =>
      let stepByDay := isSingleDay || forceScrollByDay || scrollByDay
      let nextVisibleDayIndex := nextTargetIndex stepByDay (currentIndex : ℤ) columns
      let nextOffset := pageOffset isSingleDay stepByDay calendarGridWidth columnWidth
        columns nextVisibleDayIndex
      let nextDateUnix := jsArrayGet visibleDatesArray nextVisibleDayIndex
      if !jsTruthyNum nextDateUnix || !isScrollable nextOffset then ⟨none, none⟩
      else ⟨nextDateUnix, some nextOffset⟩

/-- `goToPrevPage`: same structure as `goToNextPage`, with the target day
index clamped at 0 by `Math.max`. -/
def goToPrevPage (isScrollable : ℚ → Bool) (isSingleDay forceScrollByDay scrollByDay : Bool)
    (calendarGridWidth columnWidth : ℚ) (columns : ℤ)
    (visibleDatesArray : List ℤ) (visibleDateUnix : ℤ)
    (triggerDateChanged : Option ℤ) : PageNavResult :=
  if jsTruthyNum triggerDateChanged then ⟨triggerDateChanged, none⟩
  else
    match List.findIdx? (fun d => d == visibleDateUnix) visibleDatesArray with
    | none => ⟨triggerDateChanged, none⟩
    | some currentIndex =>
      let stepByDay := isSingleDay || forceScrollByDay || scrollByDay
      let nextVisibleDayIndex := prevTargetIndex stepByDay (currentIndex : ℤ) columns
      let nextOffset := pageOffset isSingleDay stepByDay calendarGridWidth columnWidth
        columns nextVisibleDayIndex
      let nextDateUnix := jsArrayGet visibleDatesArray nextVisibleDayIndex
      if !jsTruthyNum nextDateUnix || !isScrollable nextOffset then ⟨none, none⟩
      else ⟨nextDateUnix, some nextOffset⟩

theorem findIdx_beq_eq_none_of_not_mem (l : List ℤ) (x : ℤ) (h : x ∉ l) :
    List.findIdx? (fun d => d == x) l = none := by
  rw [List.findIdx?_eq_none_iff]
  intro y hy
  simp only [beq_eq_false_iff_ne, ne_eq]
  intro he
  exact h (he ▸ hy)

/-- C8 counterexample: when a page change is already pending
(`triggerDateChanged` truthy), `goToNextPage` performs no scroll but leaves
`triggerDateChanged` set (still `some 5`), not unset as the claim states. -/
theorem goToNextPage_pending_keeps_trigger :
    (goToNextPage (fun _ => true) true false false 100 100 1 [0] 0
        (some 5)).triggerDateChanged = some 5 ∧
    (goToNextPage (fun _ => true) true false false 100 100 1 [0] 0
        (some 5)).scrolledTo = none ∧
    (some (5 : ℤ) ≠ (none : Option ℤ)) := by
  refine ⟨rfl, rfl, by simp⟩

/-- C8 amended: page navigation never reads past the ends of the visible date
list: `goToPrevPage` clamps the target day index at 0; both `goToNextPage`
and `goToPrevPage` perform no scroll when a page change is already pending
(leaving `triggerDateChanged` unchanged, hence still set), when the current
visible date is not in `visibleDatesArray` (leaving `triggerDateChanged`
unchanged, hence still unset), and they perform no scroll and unset
`triggerDateChanged` when the target index has no (truthy) date or the
target offset is not scrollable. -/
theorem goToPage_safety (isScrollable : ℚ → Bool)
    (isSingleDay forceScrollByDay scrollByDay : Bool) (cgw cw : ℚ) (cols : ℤ)
    (vda : List ℤ) (vdu : ℤ) (trig : Option ℤ) :
    (∀ (stepByDay : Bool) (ci c : ℤ), 0 ≤ prevTargetIndex stepByDay ci c) ∧
    (jsTruthyNum trig = true →
      goToNextPage isScrollable isSingleDay forceScrollByDay scrollByDay cgw cw cols
          vda vdu trig = ⟨trig, none⟩ ∧
      goToPrevPage isScrollable isSingleDay forceScrollByDay scrollByDay cgw cw cols
          vda vdu trig = ⟨trig, none⟩) ∧
    (vdu ∉ vda →
      goToNextPage isScrollable isSingleDay forceScrollByDay scrollByDay cgw cw cols
          vda vdu trig = ⟨trig, none⟩ ∧
      goToPrevPage isScrollable isSingleDay forceScrollByDay scrollByDay cgw cw cols
          vda vdu trig = ⟨trig, none⟩) ∧
    (∀ ci : ℕ, jsTruthyNum trig = false →
      List.findIdx? (fun d => d == vdu) vda = some ci →
      (jsTruthyNum (jsArrayGet vda (nextTargetIndex
          (isSingleDay || forceScrollByDay || scrollByDay) (ci : ℤ) cols)) = false ∨
        isScrollable (pageOffset isSingleDay
          (isSingleDay || forceScrollByDay || scrollByDay) cgw cw cols
          (nextTargetIndex (isSingleDay || forceScrollByDay || scrollByDay)
            (ci : ℤ) cols)) = false) →
      goToNextPage isScrollable isSingleDay forceScrollByDay scrollByDay cgw cw cols
        vda vdu trig = ⟨none, none⟩) ∧
    (∀ ci : ℕ, jsTruthyNum trig = false →
      List.findIdx? (fun d => d == vdu) vda = some ci →
      (jsTruthyNum (jsArrayGet vda (prevTargetIndex
          (isSingleDay || forceScrollByDay || scrollByDay) (ci : ℤ) cols)) = false ∨
        isScrollable (pageOffset isSingleDay
          (isSingleDay || forceScrollByDay || scrollByDay) cgw cw cols
          (prevTargetIndex (isSingleDay || forceScrollByDay || scrollByDay)
            (ci : ℤ) cols)) = false) →
      goToPrevPage isScrollable isSingleDay forceScrollByDay scrollByDay cgw cw cols
        vda vdu trig = ⟨none, none⟩) := by
  refine ⟨?_, ?_, ?_, ?_, ?_⟩
  · intro b ci c
    unfold prevTargetIndex
    split_ifs <;> exact le_max_right _ _
  · intro ht
    constructor <;> simp [goToNextPage, goToPrevPage, ht]
  · intro hm
    have hf := findIdx_beq_eq_none_of_not_mem vda vdu hm
    constructor
    · unfold goToNextPage
      split_ifs with h1
      · rfl
      · rw [hf]
    · unfold goToPrevPage
      split_ifs with h1
      · rfl
      · rw [hf]
  · intro ci ht hf hcase
    simp only [goToNextPage, ht, Bool.false_eq_true, if_false, hf]
    rcases hcase with hc | hc <;> simp [hc]
  · intro ci ht hf hcase
    simp only [goToPrevPage, ht, Bool.false_eq_true, if_false, hf]
    rcases hcase with hc | hc <;> simp [hc]

/-- Witness for the amended C8: with a pending page change (`some 5`), both
navigation calls return the pending trigger and perform no scroll. -/
theorem goToPage_safety_w :
    goToNextPage (fun _ => true) false false false 100 100 1 [0] 0
        (some 5) = ⟨some 5, none⟩ ∧
    goToPrevPage (fun _ => true) false false false 100 100 1 [0] 0
        (some 5) = ⟨some 5, none⟩ :=
  (goToPage_safety (fun _ => true) false false false 100 100 1 [0] 0
    (some 5)).2.1 (by decide)

/-- The `_internal` layout metadata of a packed event that
`getEventByOffset` reads (`total` and `index`). -/
structure EventInternal where
  total : ℚ
  index : ℚ
  deriving DecidableEq, Repr

/-- A packed event as stored by the events provider: a payload (the title
stands in for the user-visible fields) plus the `_internal` metadata. -/
structure PackedEvent where
  title : String
  internal : EventInternal
  deriving DecidableEq, Repr

/-- An event returned to the caller, with the `_internal` field removed
(the TS `EventItem` type after `delete clonedEvent._internal`). -/
structure PublicEvent where
  title : String
  deriving DecidableEq, Repr

/-- `getDateByOffset`: resolves the date (ms) under a grid position; yields
`undefined` when the current visible date is not in `visibleDatesArray` or
when the date at `dayIndex + columnIndex` is missing or falsy.  The external
date-library call `parseDateTime(dateUnixByIndex).plus({ minutes })` is
embedded as `dateUnixByIndex + minutes * 60000`. -/
def getDateByOffset (visibleDatesArray : List ℤ) (visibleDateUnix : ℤ)
    (columnWidth minuteHeight : ℚ) (start : ℤ) (x y : ℚ) : Option ℤ :=
  match List.findIdx? (fun d => d == visibleDateUnix) visibleDatesArray with
  | none => none
  | some dayIndex =>
    let columnIndex : ℤ := ⌊x / columnWidth⌋
    match jsArrayGet visibleDatesArray ((dayIndex : ℤ) + columnIndex) with
    | none => none
    | some dateUnixByIndex =>
      if dateUnixByIndex = 0 then none
      else
        let minutes : ℤ := ⌊y / minuteHeight⌋ + start
        some (dateUnixByIndex + minutes * 60000)

/-- The hit test of the `getEventByOffset` loop:
`eventWidth = columnWidth / total; eventX = index * eventWidth;
targetX >= eventX && targetX <= eventX + eventWidth`. -/
def eventHitTest (columnWidth targetX : ℚ) (e : PackedEvent) : Bool :=
  let eW := columnWidth / e.internal.total
  let eX := e.internal.index * eW
  decide (eX ≤ targetX) && decide (targetX ≤ eX + eW)

/-- `getEventByOffset`: finds the first event of the resolved date whose
horizontal band within its column contains the x position, and returns it as
a clone with the `_internal` metadata removed (`{ ...event }` then
`delete clonedEvent._internal`); returns `null` otherwise.  The provider
lookup `eventsRef.current?.getEventsByDate(dateString)` is abstracted as the
`eventsAt` parameter (a `null` ref behaves as `eventsAt` constantly `[]`). -/
def getEventByOffset (visibleDatesArray : List ℤ) (visibleDateUnix : ℤ)
    (columnWidth minuteHeight : ℚ) (start : ℤ)
    (eventsAt : ℤ → List PackedEvent) (x y : ℚ) : Option PublicEvent :=
  match getDateByOffset visibleDatesArray visibleDateUnix columnWidth minuteHeight
      start x y with
  | none => none
  | some date =>
    let columnIndex : ℤ := ⌊x / columnWidth⌋
    let eventsByDate := eventsAt date
    let targetX := x - (columnIndex : ℚ) * columnWidth
    match eventsByDate.find? (eventHitTest columnWidth targetX) with
    | none => none
    | some e => some { title := e.title }

theorem eventHitTest_iff (cw t : ℚ) (e : PackedEvent) :
    eventHitTest cw t e = true ↔
      t ∈ Set.Icc (e.internal.index * cw / e.internal.total)
        ((e.internal.index + 1) * cw / e.internal.total) := by
  have hup : (e.internal.index + 1) * cw / e.internal.total =
      e.internal.index * (cw / e.internal.total) + cw / e.internal.total := by
    rw [mul_div_assoc]
    ring
  have hlo : e.internal.index * cw / e.internal.total =
      e.internal.index * (cw / e.internal.total) := mul_div_assoc _ _ _
  rw [Set.mem_Icc, hup, hlo]
  simp [eventHitTest]

/-- C9: `getEventByOffset` returns `null` exactly when no event lies at the
given position — no date resolvable at the offset, or no event of that date
whose horizontal band `[index * columnWidth / total,
(index + 1) * columnWidth / total]` contains the x coordinate within its
column; when it returns an event, the result is a clone of a stored event of
that date with the `_internal` layout metadata removed (only the payload
remains; the stored event is untouched, since the clone is a fresh record). -/
theorem getEventByOffset_spec (vda : List ℤ) (vdu : ℤ) (cw mh : ℚ) (start : ℤ)
    (eventsAt : ℤ → List PackedEvent) (x y : ℚ) :
    (getEventByOffset vda vdu cw mh start eventsAt x y = none ↔
      (getDateByOffset vda vdu cw mh start x y = none ∨
        ∃ date, getDateByOffset vda vdu cw mh start x y = some date ∧
          ∀ e ∈ eventsAt date,
            x - ((⌊x / cw⌋ : ℤ) : ℚ) * cw ∉
              Set.Icc (e.internal.index * cw / e.internal.total)
                ((e.internal.index + 1) * cw / e.internal.total))) ∧
    (∀ r, getEventByOffset vda vdu cw mh start eventsAt x y = some r →
      ∃ date, getDateByOffset vda vdu cw mh start x y = some date ∧
        ∃ e ∈ eventsAt date,
          x - ((⌊x / cw⌋ : ℤ) : ℚ) * cw ∈
            Set.Icc (e.internal.index * cw / e.internal.total)
              ((e.internal.index + 1) * cw / e.internal.total) ∧
          r = { title := e.title }) := by
  cases hd : getDateByOffset vda vdu cw mh start x y with
  | none =>
    constructor
    · simp [getEventByOffset, hd]
    · intro r hr
      rw [getEventByOffset] at hr
      rw [hd] at hr
      exact absurd hr (by simp)
  | some date =>
    have hev : getEventByOffset vda vdu cw mh start eventsAt x y =
        ((eventsAt date).find? (eventHitTest cw (x - ((⌊x / cw⌋ : ℤ) : ℚ) * cw))).map
          (fun e => ({ title := e.title } : PublicEvent)) := by
      simp only [getEventByOffset, hd]
      cases hf : (eventsAt date).find?
          (eventHitTest cw (x - ((⌊x / cw⌋ : ℤ) : ℚ) * cw)) with
      | none => simp
      | some e => simp
    constructor
    · rw [hev]
      cases hf : (eventsAt date).find?
          (eventHitTest cw (x - ((⌊x / cw⌋ : ℤ) : ℚ) * cw)) with
      | none =>
        simp only [Option.map_none']
        constructor
        · intro _
          refine Or.inr ⟨date, rfl, fun e he => ?_⟩
          have hne := List.find?_eq_none.mp hf e he
          rw [← eventHitTest_iff]
          simpa using hne
        · intro _
          trivial
      | some e =>
        simp only [Option.map_some']
        constructor
        · intro hcontra
          exact absurd hcontra (by simp)
        · rintro (hcontra | ⟨date', hdate', hall⟩)
          · exact absurd hcontra (by simp)
          · injection hdate' with hdd
            subst hdd
            have hmem := List.mem_of_find?_eq_some hf
            have hpred := List.find?_some hf
            rw [eventHitTest_iff] at hpred
            exact ((hall e hmem) hpred).elim
    · intro r hr
      rw [hev] at hr
      cases hf : (eventsAt date).find?
          (eventHitTest cw (x - ((⌊x / cw⌋ : ℤ) : ℚ) * cw)) with
      | none =>
        rw [hf] at hr
        exact absurd hr (by simp)
      | some e =>
        rw [hf] at hr
        have hre : r = { title := e.title } := by simpa using hr.symm
        have hmem := List.mem_of_find?_eq_some hf
        have hpred := List.find?_some hf
        rw [eventHitTest_iff] at hpred
        exact ⟨date, rfl, e, hmem, hpred, hre⟩

/-- Witness for C9: with a single visible date `86400000`, one stored event
spanning the whole column and the pointer inside the column, the call
resolves the date and returns the clone without `_internal`. -/
theorem getEventByOffset_spec_w :
    ∃ date, getDateByOffset [86400000] 86400000 100 1 0 50 30 = some date ∧
      ∃ e ∈ [(⟨"meeting", ⟨1, 0⟩⟩ : PackedEvent)],
        (50 : ℚ) - ((⌊(50 : ℚ) / 100⌋ : ℤ) : ℚ) * 100 ∈
          Set.Icc (e.internal.index * 100 / e.internal.total)
            ((e.internal.index + 1) * 100 / e.internal.total) ∧
        (⟨"meeting"⟩ : PublicEvent) = { title := e.title } := by
  have hidx : List.findIdx? (fun d => d == (86400000 : ℤ)) [86400000] = some 0 := by decide
  have hdate : getDateByOffset [86400000] 86400000 100 1 0 50 30 = some 88200000 := by
    simp only [getDateByOffset, hidx]
    norm_num [jsArrayGet]
  have hhit : eventHitTest 100 (50 - ((⌊(50 : ℚ) / 100⌋ : ℤ) : ℚ) * 100)
      (⟨"meeting", ⟨1, 0⟩⟩ : PackedEvent) = true := by
    simp only [eventHitTest]
    norm_num
  have hev : getEventByOffset [86400000] 86400000 100 1 0
      (fun _ => [⟨"meeting", ⟨1, 0⟩⟩]) 50 30 = some ⟨"meeting"⟩ := by
    simp only [getEventByOffset, hdate]
    rw [List.find?_cons_of_pos _ hhit]
  exact (getEventByOffset_spec [86400000] 86400000 100 1 0
    (fun _ => [⟨"meeting", ⟨1, 0⟩⟩]) 50 30).2 ⟨"meeting"⟩ hev

end CalendarKit
